import Mathlib

/-!
Verification of the serene-python-client core against its specification.

The development shallowly embeds the relevant parts of the repository:
the Octopus entity (serene/elements/octopus.py), the Karma alignment
graph converter (Octopus.convert_karma_graph), and the endpoint proxies
with their lru_cache based identity caches (serene/endpoints.py).
Python exceptions are modelled with an explicit error type; stateful
code is modelled by explicit state passing.
-/

/-- Python exceptions that the embedded code can raise. -/
inductive PyError where
  | valueError (msg : String)
  | typeError (msg : String)
  | keyError
  | attributeError
  | serverError
  | exception (msg : String)
deriving DecidableEq, Repr

/-- Association list lookup returning the first binding of the key,
matching Python dict lookup on well-formed (unique-key) dicts. -/
def alookup {α β : Type} [DecidableEq α] : List (α × β) → α → Option β
  | [], _ => none
  | p :: ps, k => if p.1 = k then some p.2 else alookup ps k

/-- Association list insertion that overwrites the first binding of the
key in place, or appends a fresh binding at the end: the semantics of
Python dict assignment (insertion order is preserved, an existing key
keeps its position). -/
def dinsert {α β : Type} [DecidableEq α] : List (α × β) → α → β → List (α × β)
  | [], k, v => [(k, v)]
  | p :: ps, k, v => if p.1 = k then (k, v) :: ps else p :: dinsert ps k v

theorem alookup_nil {α β : Type} [DecidableEq α] (k : α) :
    alookup ([] : List (α × β)) k = none := rfl

theorem alookup_dinsert_self {α β : Type} [DecidableEq α]
    (m : List (α × β)) (k : α) (v : β) :
    alookup (dinsert m k v) k = some v := by
  induction m with
  | nil => simp [dinsert, alookup]
  | cons p ps ih =>
    by_cases h : p.1 = k
    · simp [dinsert, alookup, h]
    · simp [dinsert, alookup, h, ih]

theorem alookup_dinsert_ne {α β : Type} [DecidableEq α]
    (m : List (α × β)) (k1 k : α) (v : β) (h : k1 ≠ k) :
    alookup (dinsert m k1 v) k = alookup m k := by
  induction m with
  | nil => simp [dinsert, alookup, h]
  | cons p ps ih =>
    by_cases hp : p.1 = k1
    · simp [dinsert, alookup, hp, h]
    · simp only [dinsert, hp, if_false, alookup]
      by_cases hk : p.1 = k
      · simp [hk]
      · simp [hk, ih]

/-- In-place update of the element at position i; the identity beyond
the end of the list. Models assignment to an existing graph node slot. -/
def setAt {α : Type} : List α → Nat → α → List α
  | [], _, _ => []
  | _ :: tl, 0, v => v :: tl
  | hd :: tl, Nat.succ i, v => hd :: setAt tl i v

theorem setAt_get_ne {α : Type} (xs : List α) (i j : Nat) (v : α) (h : i ≠ j) :
    (setAt xs i v)[j]? = xs[j]? := by
  induction xs generalizing i j with
  | nil => simp [setAt]
  | cons hd tl ih =>
    cases i with
    | zero =>
      cases j with
      | zero => exact absurd rfl h
      | succ j => simp [setAt]
    | succ i =>
      cases j with
      | zero => simp [setAt]
      | succ j =>
        simp only [setAt, List.getElem?_cons_succ]
        exact ih i j (fun hc => h (by rw [hc]))

theorem setAt_get_self {α : Type} (xs : List α) (i : Nat) (v w : α)
    (h : xs[i]? = some w) :
    (setAt xs i v)[i]? = some v := by
  induction xs generalizing i with
  | nil => simp at h
  | cons hd tl ih =>
    cases i with
    | zero => simp [setAt]
    | succ i =>
      simp only [List.getElem?_cons_succ] at h
      simp only [setAt, List.getElem?_cons_succ]
      exact ih i h

/- ----------------------------------------------------------------
   The Octopus entity (serene/elements/octopus.py).
   ---------------------------------------------------------------- -/

/-- Dynamic value of the modeling_props constructor argument: Python
None, a non-dict value such as a list, or a dict of numeric properties.
JSON numbers are embedded as rationals; the embedded comparisons are
exactly the order comparisons the source performs. -/
inductive MProps where
  | pynone
  | pylist
  | pydict (props : List (String × Rat))
deriving DecidableEq, Repr

/-- Modelled from the spec: the ModelType enumeration of the matcher
module (serene/matcher, not under src/). The spec and the call sites fix
the string "randomForest" as the supported default model type. -/
def ModelType.values : List String := ["randomForest"]

/-- Modelled from the spec: the SamplingStrategy enumeration of the
matcher module (serene/matcher, not under src/). The spec and the call
sites fix "NoResampling" and the bagging strategies as supported values. -/
def SamplingStrategy.values : List String :=
  ["NoResampling", "Bagging", "UpsampleToMax", "ResampleToMean"]

/-- A reference to an SSD entity as the Octopus sees it: the remote
identifier once persisted, the stored flag, and a display name used in
error messages. -/
structure SSDRef where
  id : Option Nat
  stored : Bool
  name : String
deriving DecidableEq, Repr

/-- A reference to an Ontology entity as the Octopus sees it. -/
structure OntoRef where
  id : Option Nat
  stored : Bool
  name : String
deriving DecidableEq, Repr

/-- The Octopus entity: a local object holding SSD and Ontology
membership lists (None when never supplied), the stored flag, and the
constructor parameters. -/
structure Octopus where
  id : Option Nat
  stored : Bool
  ssds : Option (List SSDRef)
  ontologies : Option (List OntoRef)
  name : String
  description : String
  model_type : String
  resampling_strategy : String
  num_bags : Nat
  bag_size : Nat
  modeling_props : MProps
deriving DecidableEq, Repr

/-- Octopus.__init__: validates the model_type and resampling_strategy
enum strings and otherwise stores the arguments unexamined; in
particular the modeling_props argument is not validated here. -/
def Octopus.init (ssds : Option (List SSDRef)) (name : String)
    (description : String) (model_type : String)
    (resampling_strategy : String) (num_bags : Nat) (bag_size : Nat)
    (ontologies : Option (List OntoRef)) (modeling_props : MProps) :
    Except PyError Octopus :=
  if model_type ∉ ModelType.values then
    .error (.valueError ("Model type " ++ model_type ++ " is invalid"))
  else if resampling_strategy ∉ SamplingStrategy.values then
    .error (.valueError ("Resampling strategy type " ++ resampling_strategy ++ " is invalid"))
  else
    .ok ⟨none, false, ssds, ontologies, name, description, model_type,
         resampling_strategy, num_bags, bag_size, modeling_props⟩

/-- A dynamically typed argument to Octopus.add and Octopus.remove: an
SSD, an Ontology, or a value of any other type. -/
inductive OctoValue where
  | ssd (s : SSDRef)
  | ontology (o : OntoRef)
  | other (descr : String)
deriving DecidableEq, Repr

/-- Octopus.add: appends an SSD or Ontology to the corresponding list
after clearing the stored flag; any other type raises ValueError before
touching the object. A None membership list raises AttributeError from
the append, after the stored flag was already cleared. The returned
pair is (raised exception if any, object state after the call). -/
def Octopus.add (o : Octopus) (v : OctoValue) : Option PyError × Octopus :=
  match v with
  | .ssd s =>
    match o.ssds with
    | some l => (none, { o with stored := false, ssds := some (l ++ [s]) })
    | none => (some .attributeError, { o with stored := false })
  | .ontology t =>
    match o.ontologies with
    | some l => (none, { o with stored := false, ontologies := some (l ++ [t]) })
    | none => (some .attributeError, { o with stored := false })
  | .other _ =>
    (some (.valueError "Only SSD or Ontologies can be added to the Octopus"), o)

/-- Octopus.remove: clears the stored flag and then removes the first
occurrence of the value from the corresponding list; a value that is
absent raises ValueError from list.remove, with the stored flag already
cleared. Any other type raises ValueError without touching the object. -/
def Octopus.remove (o : Octopus) (v : OctoValue) : Option PyError × Octopus :=
  match v with
  | .ssd s =>
    match o.ssds with
    | some l =>
      if s ∈ l then
        (none, { o with stored := false, ssds := some (l.erase s) })
      else
        (some (.valueError "list.remove(x): x not in list"), { o with stored := false })
    | none => (some .attributeError, { o with stored := false })
  | .ontology t =>
    match o.ontologies with
    | some l =>
      if t ∈ l then
        (none, { o with stored := false, ontologies := some (l.erase t) })
      else
        (some (.valueError "list.remove(x): x not in list"), { o with stored := false })
    | none => (some .attributeError, { o with stored := false })
  | .other _ =>
    (some (.valueError "Only SSD or Ontologies can be removed from the Octopus"), o)

/-- Upper bound of a numeric range: a finite rational or infinity. -/
inductive RangeBound where
  | fin (q : Rat)
  | infinite
deriving DecidableEq, Repr

/-- The in_range helper of check_modeling_props. -/
def in_range (x a : Rat) (b : RangeBound) (inclusive : Bool) : Bool :=
  match b with
  | .fin q => if inclusive then decide (a ≤ x ∧ x ≤ q) else decide (a < x ∧ x < q)
  | .infinite => if inclusive then decide (a ≤ x) else decide (a < x)

/-- The prop_in_range helper of check_modeling_props: a key absent from
the dict passes silently; a present key must be in range. -/
def prop_in_range (props : List (String × Rat)) (name : String)
    (a : Rat) (b : RangeBound) (inclusive : Bool) : Except PyError Unit :=
  match alookup props name with
  | none => .ok ()
  | some prop =>
    if in_range prop a b inclusive then .ok ()
    else .error (.valueError ("Modeling property " ++ name ++ " is out of range"))

/-- Octopus.check_modeling_props on the modeling_props value: a
non-dict value returns silently; a dict is checked against the seven
named numeric ranges in source order. -/
def checkProps (mp : MProps) : Except PyError Unit :=
  match mp with
  | .pydict props => do
    prop_in_range props "mappingBranchFactor" 0 .infinite false
    prop_in_range props "numCandidateMappings" 0 .infinite false
    prop_in_range props "topkSteinerTrees" 0 .infinite false
    prop_in_range props "numSemanticTypes" 0 .infinite false
    prop_in_range props "confidenceWeight" 0 (.fin 1) true
    prop_in_range props "coherenceWeight" 0 (.fin 1) true
    prop_in_range props "sizeWeight" 0 (.fin 1) true
  | _ => .ok ()

/-- Octopus.check_modeling_props. -/
def Octopus.check_modeling_props (o : Octopus) : Except PyError Unit :=
  checkProps o.modeling_props

/- ----------------------------------------------------------------
   Claims C2, C4, C8, C9: Octopus entity behaviour.
   ---------------------------------------------------------------- -/

/-- The seven modeling property keys that check_modeling_props ranges
over, in source order. -/
def modelingKeys : List String :=
  ["mappingBranchFactor", "numCandidateMappings", "topkSteinerTrees",
   "numSemanticTypes", "confidenceWeight", "coherenceWeight", "sizeWeight"]

theorem alookup_eq_none_of_not_key {α β : Type} [DecidableEq α]
    (m : List (α × β)) (k : α) (h : ∀ p ∈ m, p.1 ≠ k) :
    alookup m k = none := by
  induction m with
  | nil => rfl
  | cons p ps ih =>
    have hp := h p (List.mem_cons_self p ps)
    simp only [alookup, hp, if_false]
    exact ih (fun q hq => h q (List.mem_cons_of_mem p hq))

/-- A concrete example Octopus, stored on the server, with one SSD and
one Ontology. -/
def exOcto : Octopus :=
  ⟨some 5, true, some [⟨some 1, true, "s1"⟩], some [⟨some 2, true, "o1"⟩],
   "n", "d", "randomForest", "NoResampling", 10, 10, .pynone⟩

/-- C4: adding an SSD to an Octopus clears the stored flag and appends
the SSD to the ssds list; symmetrically for an Ontology; any other
value raises ValueError and leaves the object (ssds, ontologies and
stored flag) unchanged. -/
theorem octopus_add_spec (o : Octopus) (s : SSDRef) (t : OntoRef) (d : String)
    (l : List SSDRef) (m : List OntoRef)
    (hs : o.ssds = some l) (ht : o.ontologies = some m) :
    o.add (.ssd s) = (none, { o with stored := false, ssds := some (l ++ [s]) }) ∧
    o.add (.ontology t) = (none, { o with stored := false, ontologies := some (m ++ [t]) }) ∧
    o.add (.other d) =
      (some (.valueError "Only SSD or Ontologies can be added to the Octopus"), o) := by
  refine ⟨?_, ?_, ?_⟩ <;> simp [Octopus.add, hs, ht]

/-- Witness for C4 at a concrete Octopus. -/
theorem octopus_add_spec_witness :
    exOcto.add (.ssd ⟨none, false, "s2"⟩) =
      (none,
        { exOcto with
            stored := false,
            ssds := some [⟨some 1, true, "s1"⟩, ⟨none, false, "s2"⟩] }) ∧
    exOcto.add (.ontology ⟨none, false, "o2"⟩) =
      (none,
        { exOcto with
            stored := false,
            ontologies := some [⟨some 2, true, "o1"⟩, ⟨none, false, "o2"⟩] }) ∧
    exOcto.add (.other "int") =
      (some (.valueError "Only SSD or Ontologies can be added to the Octopus"), exOcto) :=
  octopus_add_spec exOcto ⟨none, false, "s2"⟩ ⟨none, false, "o2"⟩ "int"
    [⟨some 1, true, "s1"⟩] [⟨some 2, true, "o1"⟩] rfl rfl

/-- C8: removing an SSD (or Ontology) that is not a member raises the
error of the underlying list removal, yet the stored flag has already
been cleared when the error is raised, so the failed call still leaves
stored equal to false. -/
theorem octopus_remove_nonatomic (o : Octopus) (s : SSDRef) (t : OntoRef)
    (l : List SSDRef) (m : List OntoRef)
    (hs : o.ssds = some l) (hns : s ∉ l)
    (ht : o.ontologies = some m) (hnt : t ∉ m) :
    o.remove (.ssd s) =
      (some (.valueError "list.remove(x): x not in list"), { o with stored := false }) ∧
    o.remove (.ontology t) =
      (some (.valueError "list.remove(x): x not in list"), { o with stored := false }) := by
  constructor <;> simp [Octopus.remove, hs, ht, hns, hnt]

/-- Witness for C8: a stored Octopus loses its stored flag on a failed
remove of a non-member SSD. -/
theorem octopus_remove_nonatomic_witness :
    (exOcto.remove (.ssd ⟨some 9, true, "s9"⟩) =
      (some (.valueError "list.remove(x): x not in list"), { exOcto with stored := false }) ∧
     exOcto.remove (.ontology ⟨some 9, true, "o9"⟩) =
      (some (.valueError "list.remove(x): x not in list"), { exOcto with stored := false })) ∧
    exOcto.stored = true :=
  ⟨octopus_remove_nonatomic exOcto ⟨some 9, true, "s9"⟩ ⟨some 9, true, "o9"⟩
    [⟨some 1, true, "s1"⟩] [⟨some 2, true, "o1"⟩] rfl (by decide) rfl (by decide), rfl⟩

/-- C9: check_modeling_props returns silently when modeling_props is
not a dict (None or a list); on a dict, the outcome depends only on the
bindings of the seven named keys, and a dict containing none of those
keys passes without any validation. -/
theorem check_modeling_props_selective :
    (checkProps .pynone = .ok () ∧ checkProps .pylist = .ok ()) ∧
    (∀ props : List (String × Rat), (∀ p ∈ props, p.1 ∉ modelingKeys) →
      checkProps (.pydict props) = .ok ()) ∧
    (∀ props1 props2 : List (String × Rat),
      (∀ k ∈ modelingKeys, alookup props1 k = alookup props2 k) →
      checkProps (.pydict props1) = checkProps (.pydict props2)) := by
  refine ⟨⟨rfl, rfl⟩, ?_, ?_⟩
  · intro props h
    have hk : ∀ k ∈ modelingKeys, alookup props k = none := by
      intro k hk
      exact alookup_eq_none_of_not_key props k
        (fun p hp he => h p hp (he ▸ hk))
    simp only [modelingKeys, List.mem_cons, List.mem_singleton,
      List.not_mem_nil, or_false, forall_eq_or_imp, forall_eq] at hk
    obtain ⟨h1, h2, h3, h4, h5, h6, h7⟩ := hk
    simp [checkProps, prop_in_range, h1, h2, h3, h4, h5, h6, h7]
    rfl
  · intro props1 props2 h
    simp only [modelingKeys, List.mem_cons, List.mem_singleton,
      List.not_mem_nil, or_false, forall_eq_or_imp, forall_eq] at h
    obtain ⟨h1, h2, h3, h4, h5, h6, h7⟩ := h
    simp [checkProps, prop_in_range, h1, h2, h3, h4, h5, h6, h7]

/-- Witness for C9: a dict with only an unlisted key passes, a list and
None pass, and the outcome on a dict ignores unlisted keys. -/
theorem check_modeling_props_selective_witness :
    checkProps (.pydict [("unknownKey", (42 : Rat))]) = .ok () ∧
    checkProps (.pydict [("confidenceWeight", mkRat 1 2), ("extra", (99 : Rat))]) =
      checkProps (.pydict [("confidenceWeight", mkRat 1 2)]) :=
  ⟨check_modeling_props_selective.2.1 [("unknownKey", (42 : Rat))] (by decide),
   check_modeling_props_selective.2.2 _ _ (by decide)⟩

/-- C2 counterexample: constructing an Octopus with the out-of-range
modeling property confidenceWeight = 1.5 succeeds without raising any
error, because Octopus.__init__ never invokes check_modeling_props. -/
theorem octopus_init_accepts_bad_props :
    Octopus.init none "" "" "randomForest" "NoResampling" 10 10 none
      (.pydict [("confidenceWeight", mkRat 3 2)]) =
    .ok ⟨none, false, none, none, "", "", "randomForest", "NoResampling",
         10, 10, .pydict [("confidenceWeight", mkRat 3 2)]⟩ := by
  rfl

/-- C2 amended: construction stores modeling_props without validating
them; the range check lives in the separate method
check_modeling_props, which raises ValueError for
confidenceWeight = 1.5 and passes for confidenceWeight = 0.5. -/
theorem modeling_props_checked_only_explicitly :
    (∃ o : Octopus,
      Octopus.init none "" "" "randomForest" "NoResampling" 10 10 none
        (.pydict [("confidenceWeight", mkRat 3 2)]) = .ok o ∧
      o.check_modeling_props =
        .error (.valueError "Modeling property confidenceWeight is out of range")) ∧
    (∃ o : Octopus,
      Octopus.init none "" "" "randomForest" "NoResampling" 10 10 none
        (.pydict [("confidenceWeight", mkRat 1 2)]) = .ok o ∧
      o.check_modeling_props = .ok ()) := by
  constructor
  · exact ⟨_, rfl, by rfl⟩
  · exact ⟨_, rfl, by rfl⟩

/- ----------------------------------------------------------------
   The Karma alignment graph converter
   (Octopus.convert_karma_graph, serene/elements/octopus.py).
   ---------------------------------------------------------------- -/

/-- Tests whether the second list starts with the first. -/
def sepLeads : List Char → List Char → Bool
  | [], _ => true
  | _ :: _, [] => false
  | a :: as, b :: bs => a = b && sepLeads as bs

/-- Fuelled worker for splitting a character list on a separator;
the fuel is an upper bound on the number of steps and keeps the
recursion structural. -/
def splitSepAux (sep : List Char) : Nat → List Char → List Char → List (List Char)
  | 0, s, acc => [acc.reverse ++ s]
  | Nat.succ fuel, s, acc =>
    if sep ≠ [] ∧ sepLeads sep s then
      acc.reverse :: splitSepAux sep fuel (s.drop sep.length) []
    else
      match s with
      | [] => [acc.reverse]
      | c :: cs => splitSepAux sep fuel cs (c :: acc)

/-- Python str.split with an explicit separator, on character lists. -/
def splitOnSep (sep s : List Char) : List (List Char) :=
  splitSepAux sep (s.length + 1) s []

/-- Modelled from the spec: utils.get_label (serene/utils.py, not under
src/) derives the human-readable label from a URI by taking the part
after the last namespace separator, so that "ex:Person" gives "Person"
and "ex:name" gives "name". -/
def get_label (uri : String) : String :=
  let s1 := (splitOnSep ['#'] uri.toList).getLastD []
  let s2 := (splitOnSep ['/'] s1).getLastD []
  String.mk ((splitOnSep [':'] s2).getLastD [])

/-- Modelled from the spec: utils.get_prefix (serene/utils.py, not
under src/) extracts the namespace part of the URI, the characters
before the label, so that "ex:Person" gives "ex:". -/
def get_pfx (uri : String) : String :=
  String.mk (uri.toList.take (uri.toList.length - (get_label uri).toList.length))

/-- A node record of the Karma graphs.json export: the vendor id, the
type tag, and the labelled URI when one is present (node["label"]["uri"],
absent for data nodes). -/
structure KNode where
  id : String
  ntype : String
  uri : Option String
deriving DecidableEq, Repr

/-- A link record of the Karma export: the composite vendor id of the
form source---uri---target, the type tag and the weight. -/
structure KLink where
  id : String
  ltype : String
  weight : Rat
deriving DecidableEq, Repr

/-- The input JSON of convert_karma_graph. -/
structure KData where
  nodes : List KNode
  links : List KLink
deriving DecidableEq, Repr

/-- Attributes stored on a converted graph node. The source attribute
dict key "prefix" is embedded as the field pfx. -/
structure NodeData where
  type : String
  label : String
  lab : String
  pfx : String
deriving DecidableEq, Repr

instance : Inhabited NodeData := ⟨⟨"", "", "", ""⟩⟩

/-- Attributes stored on a converted graph edge. -/
structure LinkData where
  alignId : String
  type : String
  weight : Rat
  label : String
  pfx : String
deriving DecidableEq, Repr

/-- A directed multigraph edge: source index, target index, edge key
and attributes. -/
structure KEdge where
  src : Nat
  tgt : Nat
  key : Nat
  data : LinkData
deriving DecidableEq, Repr

/-- The converted multigraph: node attributes indexed by the dense node
index, and the edge list. -/
structure KGraph where
  nodesAttr : List NodeData
  edges : List KEdge
deriving DecidableEq, Repr

/-- The id-to-index lookup tables built by the conversion. -/
abbrev IdMap := List (String × Nat)

/-- The attribute dict built for one node of the Karma export: a
ClassNode with label, lab and namespace derived from the URI for an
InternalNode, an attribute-less DataNode otherwise. An InternalNode
without a labelled URI raises KeyError. -/
def initNodeData (node : KNode) : Except PyError NodeData :=
  if node.ntype = "InternalNode" then
    match node.uri with
    | some u => .ok ⟨"ClassNode", get_label u, get_label node.id, get_pfx u⟩
    | none => .error .keyError
  else
    .ok ⟨"DataNode", "", "", ""⟩

/-- The node loop of convert_karma_graph: assign dense indices in input
order, record them in the node map, and build the attribute list. -/
def convertNodes : List KNode → Nat → IdMap → List NodeData →
    Except PyError (IdMap × List NodeData)
  | [], _, nm, acc => .ok (nm, acc)
  | n :: ns, cur, nm, acc =>
    match initNodeData n with
    | .error e => .error e
    | .ok nd => convertNodes ns (cur + 1) (dinsert nm n.id cur) (acc ++ [nd])

/-- Splits a link id into its (source, uri, target) components; fails
unless the separator "---" splits the id into exactly three parts,
mirroring the tuple unpacking of the source. -/
def splitLink (s : String) : Option (String × String × String) :=
  match (splitOnSep "---".toList s.toList).map String.mk with
  | [a, b, c] => some (a, b, c)
  | _ => none

/-- State of the link loop: the next edge key, the link map, the
mutable node attributes and the accumulated edge list. -/
structure LState where
  cur : Nat
  lm : IdMap
  attrs : List NodeData
  edges : List KEdge
deriving DecidableEq, Repr

/-- A link whose type marks it as attaching a data value or instance to
a class: one of the two terminal link kinds. -/
def isTerminal (l : KLink) : Prop :=
  l.ltype = "DataPropertyLink" ∨ l.ltype = "ClassInstanceLink"

instance (l : KLink) : Decidable (isTerminal l) := by
  unfold isTerminal; infer_instance

/-- First assignment of the terminal-link post-processing: the target
label becomes the source label concatenated with the edge label. -/
def assignLabel (attrs : List NodeData) (si ti : Nat) (elbl : String) : List NodeData :=
  setAt attrs ti
    ⟨(attrs.getD ti default).type,
     (attrs.getD si default).label ++ "---" ++ elbl,
     (attrs.getD ti default).lab, (attrs.getD ti default).pfx⟩

/-- Second assignment: the target lab becomes the source lab
concatenated with the edge label. -/
def assignLab (attrs : List NodeData) (si ti : Nat) (elbl : String) : List NodeData :=
  setAt attrs ti
    ⟨(attrs.getD ti default).type, (attrs.getD ti default).label,
     (attrs.getD si default).lab ++ "---" ++ elbl, (attrs.getD ti default).pfx⟩

/-- Third assignment: the target namespace becomes the source
namespace. -/
def assignPfx (attrs : List NodeData) (si ti : Nat) : List NodeData :=
  setAt attrs ti
    ⟨(attrs.getD ti default).type, (attrs.getD ti default).label,
     (attrs.getD ti default).lab, (attrs.getD si default).pfx⟩

/-- The label propagation of convert_karma_graph for a terminal link:
three sequential in-place assignments copying the source label, lab and
namespace onto the target, the first two concatenated with the edge
label using the separator. -/
def propagate (attrs : List NodeData) (si ti : Nat) (elbl : String) : List NodeData :=
  assignPfx (assignLab (assignLabel attrs si ti elbl) si ti elbl) si ti

/-- One iteration of the link loop of convert_karma_graph: record the
link id in the link map, parse the composite id, resolve both endpoint
indices, append the edge, and propagate labels when the link is of a
terminal kind. -/
def procStep (nm : IdMap) (l : KLink) (st : LState) : Except PyError LState :=
  let lm2 := dinsert st.lm l.id st.cur
  match splitLink l.id with
  | none => .error (.valueError "not enough values to unpack")
  | some (s, u, t) =>
    match alookup nm s, alookup nm t with
    | some si, some ti =>
      let ld : LinkData := ⟨l.id, l.ltype, l.weight, get_label u, get_pfx u⟩
      let edges2 := st.edges ++ [⟨si, ti, st.cur, ld⟩]
      let attrs2 := if isTerminal l then propagate st.attrs si ti ld.label else st.attrs
      .ok ⟨st.cur + 1, lm2, attrs2, edges2⟩
    | _, _ => .error .keyError

/-- The link loop of convert_karma_graph. -/
def procLinks (nm : IdMap) : List KLink → LState → Except PyError LState
  | [], st => .ok st
  | l :: ls, st =>
    match procStep nm l st with
    | .error e => .error e
    | .ok st2 => procLinks nm ls st2

/-- Octopus.convert_karma_graph: builds the directed multigraph from
the nodes and links arrays and returns it with the node and link
id-to-index maps. -/
def convert_karma_graph (data : KData) :
    Except PyError (KGraph × IdMap × IdMap) :=
  match convertNodes data.nodes 0 [] [] with
  | .error e => .error e
  | .ok (nm, attrs0) =>
    match procLinks nm data.links ⟨0, [], attrs0, []⟩ with
    | .error e => .error e
    | .ok st => .ok (⟨st.attrs, st.edges⟩, nm, st.lm)

/- ----------------------------------------------------------------
   Lemmas on the converter loops.
   ---------------------------------------------------------------- -/

/-- The node index a link writes to when it is of a terminal kind: the
resolution of the target component of its composite id. -/
def targetIdx (nm : IdMap) (l : KLink) : Option Nat :=
  match splitLink l.id with
  | some (_, _, t) => alookup nm t
  | none => none

theorem procStep_inv (nm : IdMap) (l : KLink) (st st2 : LState)
    (h : procStep nm l st = .ok st2) :
    ∃ s u t si ti,
      splitLink l.id = some (s, u, t) ∧
      alookup nm s = some si ∧ alookup nm t = some ti ∧
      st2 = ⟨st.cur + 1, dinsert st.lm l.id st.cur,
             (if isTerminal l then propagate st.attrs si ti (get_label u) else st.attrs),
             st.edges ++ [⟨si, ti, st.cur, ⟨l.id, l.ltype, l.weight, get_label u, get_pfx u⟩⟩]⟩ := by
  unfold procStep at h
  cases hsp : splitLink l.id with
  | none => rw [hsp] at h; exact absurd h (by simp)
  | some p =>
    obtain ⟨s, u, t⟩ := p
    rw [hsp] at h
    dsimp only at h
    cases hs : alookup nm s with
    | none => rw [hs] at h; dsimp only at h; exact absurd h (by simp)
    | some si =>
      cases ht : alookup nm t with
      | none => rw [hs, ht] at h; dsimp only at h; exact absurd h (by simp)
      | some ti =>
        rw [hs, ht] at h
        dsimp only at h
        simp only [Except.ok.injEq] at h
        exact ⟨s, u, t, si, ti, rfl, hs, ht, h.symm⟩

theorem propagate_get_ne (attrs : List NodeData) (si ti v : Nat) (e : String)
    (h : v ≠ ti) :
    (propagate attrs si ti e)[v]? = attrs[v]? := by
  unfold propagate assignPfx assignLab assignLabel
  rw [setAt_get_ne _ _ _ _ (fun hc => h hc.symm),
      setAt_get_ne _ _ _ _ (fun hc => h hc.symm),
      setAt_get_ne _ _ _ _ (fun hc => h hc.symm)]

theorem setAt_of_ge {α : Type} (xs : List α) (i : Nat) (v : α)
    (h : xs.length ≤ i) :
    setAt xs i v = xs := by
  induction xs generalizing i with
  | nil => rfl
  | cons hd tl ih =>
    cases i with
    | zero => simp at h
    | succ i =>
      simp only [setAt, List.cons.injEq, true_and]
      exact ih i (by simpa using h)

theorem getD_of_get {α : Type} [Inhabited α] (xs : List α) (i : Nat) (w : α)
    (h : xs[i]? = some w) : xs.getD i default = w := by
  rw [List.getD_eq_getElem?_getD, h]; rfl

theorem assignLabel_get_self (attrs : List NodeData) (si ti : Nat) (e : String)
    (ndT : NodeData) (hT : attrs[ti]? = some ndT) :
    (assignLabel attrs si ti e)[ti]? =
      some ⟨ndT.type, (attrs.getD si default).label ++ "---" ++ e, ndT.lab, ndT.pfx⟩ := by
  unfold assignLabel
  rw [getD_of_get _ ti _ hT]
  exact setAt_get_self attrs ti _ ndT hT

theorem assignLab_get_self (attrs : List NodeData) (si ti : Nat) (e : String)
    (ndT : NodeData) (hT : attrs[ti]? = some ndT) :
    (assignLab attrs si ti e)[ti]? =
      some ⟨ndT.type, ndT.label, (attrs.getD si default).lab ++ "---" ++ e, ndT.pfx⟩ := by
  unfold assignLab
  rw [getD_of_get _ ti _ hT]
  exact setAt_get_self attrs ti _ ndT hT

theorem assignPfx_get_self (attrs : List NodeData) (si ti : Nat)
    (ndT : NodeData) (hT : attrs[ti]? = some ndT) :
    (assignPfx attrs si ti)[ti]? =
      some ⟨ndT.type, ndT.label, ndT.lab, (attrs.getD si default).pfx⟩ := by
  unfold assignPfx
  rw [getD_of_get _ ti _ hT]
  exact setAt_get_self attrs ti _ ndT hT

theorem assignLabel_get_ne (attrs : List NodeData) (si ti v : Nat) (e : String)
    (h : v ≠ ti) : (assignLabel attrs si ti e)[v]? = attrs[v]? := by
  unfold assignLabel
  rw [setAt_get_ne _ _ _ _ (fun hc => h hc.symm)]

theorem assignLab_get_ne (attrs : List NodeData) (si ti v : Nat) (e : String)
    (h : v ≠ ti) : (assignLab attrs si ti e)[v]? = attrs[v]? := by
  unfold assignLab
  rw [setAt_get_ne _ _ _ _ (fun hc => h hc.symm)]

theorem assignPfx_get_ne (attrs : List NodeData) (si ti v : Nat)
    (h : v ≠ ti) : (assignPfx attrs si ti)[v]? = attrs[v]? := by
  unfold assignPfx
  rw [setAt_get_ne _ _ _ _ (fun hc => h hc.symm)]

theorem propagate_get_self (attrs : List NodeData) (si ti : Nat) (e : String)
    (ndT : NodeData) (hT : attrs[ti]? = some ndT) :
    ∃ nd2 : NodeData, (propagate attrs si ti e)[ti]? = some nd2 ∧ nd2.type = ndT.type := by
  unfold propagate
  have h1 := assignLabel_get_self attrs si ti e ndT hT
  have h2 := assignLab_get_self (assignLabel attrs si ti e) si ti e _ h1
  have h3 := assignPfx_get_self (assignLab (assignLabel attrs si ti e) si ti e) si ti _ h2
  exact ⟨_, h3, rfl⟩

theorem propagate_get_type (attrs : List NodeData) (si ti v : Nat) (e : String) :
    ((propagate attrs si ti e)[v]?).map NodeData.type = (attrs[v]?).map NodeData.type := by
  by_cases hv : v = ti
  · subst hv
    cases hval : attrs[v]? with
    | none =>
      have hlen : attrs.length ≤ v := by
        by_contra hlt
        push_neg at hlt
        have hsome : attrs[v]? = some (attrs[v]) := List.getElem?_eq_getElem hlt
        rw [hval] at hsome
        exact absurd hsome (by simp)
      unfold propagate assignPfx assignLab assignLabel
      simp only [show ∀ w : NodeData, setAt attrs v w = attrs from
        fun w => setAt_of_ge attrs v w hlen]
      rw [hval]
    | some nd =>
      obtain ⟨nd2, hnd2, htype⟩ := propagate_get_self attrs si v e nd hval
      rw [hnd2]
      simp [htype]
  · rw [propagate_get_ne attrs si ti v e hv]

theorem propagate_write (attrs : List NodeData) (si ti : Nat) (e : String)
    (ndS ndT : NodeData) (hne : si ≠ ti)
    (hS : attrs[si]? = some ndS) (hT : attrs[ti]? = some ndT) :
    (propagate attrs si ti e)[ti]? =
      some ⟨ndT.type, ndS.label ++ "---" ++ e, ndS.lab ++ "---" ++ e, ndS.pfx⟩ := by
  unfold propagate
  have hsv : si ≠ ti := hne
  have h1 := assignLabel_get_self attrs si ti e ndT hT
  rw [getD_of_get _ si _ hS] at h1
  have h1s : (assignLabel attrs si ti e)[si]? = some ndS := by
    rw [assignLabel_get_ne attrs si ti si e hsv]; exact hS
  have h2 := assignLab_get_self (assignLabel attrs si ti e) si ti e _ h1
  rw [getD_of_get _ si _ h1s] at h2
  have h2s : (assignLab (assignLabel attrs si ti e) si ti e)[si]? = some ndS := by
    rw [assignLab_get_ne _ si ti si e hsv]; exact h1s
  have h3 := assignPfx_get_self (assignLab (assignLabel attrs si ti e) si ti e) si ti _ h2
  rw [getD_of_get _ si _ h2s] at h3
  exact h3

theorem procStep_attrs_ne (nm : IdMap) (l : KLink) (st st2 : LState) (v : Nat)
    (h : procStep nm l st = .ok st2)
    (hv : ¬ (isTerminal l ∧ targetIdx nm l = some v)) :
    st2.attrs[v]? = st.attrs[v]? := by
  obtain ⟨s, u, t, si, ti, hsp, hs, ht, hst⟩ := procStep_inv nm l st st2 h
  subst hst
  by_cases hterm : isTerminal l
  · have htgt : targetIdx nm l = some ti := by
      unfold targetIdx; rw [hsp]; exact ht
    have : ti ≠ v := fun hc => hv ⟨hterm, hc ▸ htgt⟩
    simp only [hterm, if_true]
    exact propagate_get_ne st.attrs si ti v (get_label u) (fun hc => this hc.symm)
  · simp only [hterm, if_false]

theorem procStep_attrs_type (nm : IdMap) (l : KLink) (st st2 : LState) (v : Nat)
    (h : procStep nm l st = .ok st2) :
    (st2.attrs[v]?).map NodeData.type = (st.attrs[v]?).map NodeData.type := by
  obtain ⟨s, u, t, si, ti, hsp, hs, ht, hst⟩ := procStep_inv nm l st st2 h
  subst hst
  by_cases hterm : isTerminal l
  · simp only [hterm, if_true]
    exact propagate_get_type st.attrs si ti v (get_label u)
  · simp only [hterm, if_false]

theorem procStep_terminal_write (nm : IdMap) (l : KLink) (st st2 : LState)
    (s u t : String) (si ti : Nat) (ndS ndT : NodeData)
    (h : procStep nm l st = .ok st2)
    (hterm : isTerminal l)
    (hsp : splitLink l.id = some (s, u, t))
    (hs : alookup nm s = some si) (ht : alookup nm t = some ti)
    (hne : si ≠ ti)
    (hS : st.attrs[si]? = some ndS) (hT : st.attrs[ti]? = some ndT) :
    st2.attrs[ti]? = some ⟨ndT.type,
      ndS.label ++ "---" ++ get_label u,
      ndS.lab ++ "---" ++ get_label u, ndS.pfx⟩ := by
  obtain ⟨s2, u2, t2, si2, ti2, hsp2, hs2, ht2, hst⟩ := procStep_inv nm l st st2 h
  rw [hsp] at hsp2
  simp only [Option.some.injEq, Prod.mk.injEq] at hsp2
  obtain ⟨rfl, rfl, rfl⟩ := hsp2
  rw [hs] at hs2; rw [ht] at ht2
  simp only [Option.some.injEq] at hs2 ht2
  subst hs2; subst ht2
  subst hst
  simp only [hterm, if_true]
  exact propagate_write st.attrs si ti (get_label u) ndS ndT hne hS hT

theorem procLinks_attrs_stable (nm : IdMap) (ls : List KLink) (st stF : LState)
    (v : Nat) (h : procLinks nm ls st = .ok stF)
    (hv : ∀ l ∈ ls, ¬ (isTerminal l ∧ targetIdx nm l = some v)) :
    stF.attrs[v]? = st.attrs[v]? := by
  induction ls generalizing st with
  | nil =>
    simp only [procLinks, Except.ok.injEq] at h
    rw [h]
  | cons l ls ih =>
    simp only [procLinks] at h
    cases hst : procStep nm l st with
    | error e => rw [hst] at h; exact absurd h (by simp)
    | ok st2 =>
      rw [hst] at h
      have h1 := procStep_attrs_ne nm l st st2 v hst (hv l (List.mem_cons_self l ls))
      have h2 := ih st2 h (fun l2 hl2 => hv l2 (List.mem_cons_of_mem l hl2))
      rw [h2, h1]

theorem procLinks_attrs_type (nm : IdMap) (ls : List KLink) (st stF : LState)
    (v : Nat) (h : procLinks nm ls st = .ok stF) :
    (stF.attrs[v]?).map NodeData.type = (st.attrs[v]?).map NodeData.type := by
  induction ls generalizing st with
  | nil =>
    simp only [procLinks, Except.ok.injEq] at h
    rw [h]
  | cons l ls ih =>
    simp only [procLinks] at h
    cases hst : procStep nm l st with
    | error e => rw [hst] at h; exact absurd h (by simp)
    | ok st2 =>
      rw [hst] at h
      rw [ih st2 h, procStep_attrs_type nm l st st2 v hst]

theorem procLinks_append (nm : IdMap) (xs ys : List KLink) (st stF : LState)
    (h : procLinks nm (xs ++ ys) st = .ok stF) :
    ∃ mid, procLinks nm xs st = .ok mid ∧ procLinks nm ys mid = .ok stF := by
  induction xs generalizing st with
  | nil => exact ⟨st, rfl, h⟩
  | cons l ls ih =>
    simp only [List.cons_append, procLinks] at h ⊢
    cases hst : procStep nm l st with
    | error e => rw [hst] at h; exact absurd h (by simp)
    | ok st2 => rw [hst] at h; exact ih st2 h

theorem procLinks_lm_stable (nm : IdMap) (ls : List KLink) (st stF : LState)
    (k : String) (h : procLinks nm ls st = .ok stF)
    (hk : ∀ l ∈ ls, l.id ≠ k) :
    alookup stF.lm k = alookup st.lm k := by
  induction ls generalizing st with
  | nil =>
    simp only [procLinks, Except.ok.injEq] at h
    rw [h]
  | cons l ls ih =>
    simp only [procLinks] at h
    cases hst : procStep nm l st with
    | error e => rw [hst] at h; exact absurd h (by simp)
    | ok st2 =>
      rw [hst] at h
      obtain ⟨s, u, t, si, ti, _, _, _, hst2⟩ := procStep_inv nm l st st2 hst
      have h2 := ih st2 h (fun l2 hl2 => hk l2 (List.mem_cons_of_mem l hl2))
      rw [h2, hst2]
      exact alookup_dinsert_ne st.lm l.id k st.cur (hk l (List.mem_cons_self l ls))

theorem procLinks_lm_positional (nm : IdMap) (ls : List KLink) (st stF : LState)
    (h : procLinks nm ls st = .ok stF)
    (hnd : (ls.map KLink.id).Nodup) :
    ∀ j l, ls[j]? = some l → alookup stF.lm l.id = some (st.cur + j) := by
  induction ls generalizing st with
  | nil => intro j l hj; simp at hj
  | cons l0 ls ih =>
    intro j l hj
    simp only [procLinks] at h
    cases hst : procStep nm l0 st with
    | error e => rw [hst] at h; exact absurd h (by simp)
    | ok st2 =>
      rw [hst] at h
      obtain ⟨s, u, t, si, ti, _, _, _, hst2⟩ := procStep_inv nm l0 st st2 hst
      rw [List.map_cons, List.nodup_cons] at hnd
      cases j with
      | zero =>
        simp only [List.getElem?_cons_zero, Option.some.injEq] at hj
        subst hj
        have hstb := procLinks_lm_stable nm ls st2 stF l0.id h
          (fun l2 hl2 hc => hnd.1 (hc ▸ List.mem_map_of_mem KLink.id hl2))
        rw [hstb, hst2]
        simpa using alookup_dinsert_self st.lm l0.id st.cur
      | succ j =>
        simp only [List.getElem?_cons_succ] at hj
        have := ih st2 h hnd.2 j l hj
        rw [hst2] at this
        simpa [Nat.add_comm, Nat.add_assoc, Nat.add_left_comm] using this

theorem convertNodes_attrs (ns : List KNode) (cur : Nat) (nm0 : IdMap)
    (acc : List NodeData) (nm : IdMap) (attrs : List NodeData)
    (h : convertNodes ns cur nm0 acc = .ok (nm, attrs)) :
    attrs.length = acc.length + ns.length ∧
    (∀ j, j < acc.length → attrs[j]? = acc[j]?) ∧
    (∀ i n, ns[i]? = some n →
      ∃ nd, initNodeData n = .ok nd ∧ attrs[acc.length + i]? = some nd) := by
  induction ns generalizing cur nm0 acc with
  | nil =>
    simp only [convertNodes, Except.ok.injEq, Prod.mk.injEq] at h
    obtain ⟨-, rfl⟩ := h
    exact ⟨by simp, fun j hj => rfl, fun i n hn => by simp at hn⟩
  | cons n0 ns ih =>
    simp only [convertNodes] at h
    cases hnd : initNodeData n0 with
    | error e => rw [hnd] at h; exact absurd h (by simp)
    | ok nd0 =>
      rw [hnd] at h
      obtain ⟨hlen, hpre, hidx⟩ := ih (cur + 1) (dinsert nm0 n0.id cur) (acc ++ [nd0]) h
      refine ⟨by simp at hlen ⊢; omega, ?_, ?_⟩
      · intro j hj
        rw [hpre j (by simp; omega)]
        rw [List.getElem?_append]
        simp [hj]
      · intro i n hn
        cases i with
        | zero =>
          simp only [List.getElem?_cons_zero, Option.some.injEq] at hn
          subst hn
          refine ⟨nd0, hnd, ?_⟩
          rw [Nat.add_zero, hpre acc.length (by simp)]
          exact List.getElem?_concat_length acc nd0
        | succ i =>
          simp only [List.getElem?_cons_succ] at hn
          obtain ⟨nd, hnd2, hget⟩ := hidx i n hn
          refine ⟨nd, hnd2, ?_⟩
          rw [← hget]
          congr 1
          simp
          omega

theorem convertNodes_map_stable (ns : List KNode) (cur : Nat) (nm0 : IdMap)
    (acc : List NodeData) (nm : IdMap) (attrs : List NodeData)
    (h : convertNodes ns cur nm0 acc = .ok (nm, attrs))
    (k : String) (hk : ∀ n ∈ ns, n.id ≠ k) :
    alookup nm k = alookup nm0 k := by
  induction ns generalizing cur nm0 acc with
  | nil =>
    simp only [convertNodes, Except.ok.injEq, Prod.mk.injEq] at h
    rw [h.1]
  | cons n0 ns ih =>
    simp only [convertNodes] at h
    cases hnd : initNodeData n0 with
    | error e => rw [hnd] at h; exact absurd h (by simp)
    | ok nd0 =>
      rw [hnd] at h
      have h2 := ih (cur + 1) (dinsert nm0 n0.id cur) (acc ++ [nd0]) h
        (fun n2 hn2 => hk n2 (List.mem_cons_of_mem n0 hn2))
      rw [h2]
      exact alookup_dinsert_ne nm0 n0.id k cur (hk n0 (List.mem_cons_self n0 ns))

theorem convertNodes_map_positional (ns : List KNode) (cur : Nat) (nm0 : IdMap)
    (acc : List NodeData) (nm : IdMap) (attrs : List NodeData)
    (h : convertNodes ns cur nm0 acc = .ok (nm, attrs))
    (hnd : (ns.map KNode.id).Nodup) :
    ∀ i n, ns[i]? = some n → alookup nm n.id = some (cur + i) := by
  induction ns generalizing cur nm0 acc with
  | nil => intro i n hn; simp at hn
  | cons n0 ns ih =>
    intro i n hn
    simp only [convertNodes] at h
    cases hnd0 : initNodeData n0 with
    | error e => rw [hnd0] at h; exact absurd h (by simp)
    | ok nd0 =>
      rw [hnd0] at h
      rw [List.map_cons, List.nodup_cons] at hnd
      cases i with
      | zero =>
        simp only [List.getElem?_cons_zero, Option.some.injEq] at hn
        subst hn
        have hstb := convertNodes_map_stable ns (cur + 1) (dinsert nm0 n0.id cur)
          (acc ++ [nd0]) nm attrs h n0.id
          (fun n2 hn2 hc => hnd.1 (hc ▸ List.mem_map_of_mem KNode.id hn2))
        rw [hstb]
        simpa using alookup_dinsert_self nm0 n0.id cur
      | succ i =>
        simp only [List.getElem?_cons_succ] at hn
        have := ih (cur + 1) (dinsert nm0 n0.id cur) (acc ++ [nd0]) h hnd.2 i n hn
        simpa [Nat.add_comm, Nat.add_assoc, Nat.add_left_comm] using this

theorem convert_inv (data : KData) (g : KGraph) (nm lm : IdMap)
    (h : convert_karma_graph data = .ok (g, nm, lm)) :
    ∃ attrs0 stF,
      convertNodes data.nodes 0 [] [] = .ok (nm, attrs0) ∧
      procLinks nm data.links ⟨0, [], attrs0, []⟩ = .ok stF ∧
      g = ⟨stF.attrs, stF.edges⟩ ∧ lm = stF.lm := by
  unfold convert_karma_graph at h
  cases hn : convertNodes data.nodes 0 [] [] with
  | error e => rw [hn] at h; exact absurd h (by simp)
  | ok p =>
    obtain ⟨nm1, attrs0⟩ := p
    rw [hn] at h
    dsimp only at h
    cases hl : procLinks nm1 data.links ⟨0, [], attrs0, []⟩ with
    | error e => rw [hl] at h; exact absurd h (by simp)
    | ok stF =>
      rw [hl] at h
      dsimp only at h
      simp only [Except.ok.injEq, Prod.mk.injEq] at h
      obtain ⟨hg, hnm, hlm⟩ := h
      subst hnm
      exact ⟨attrs0, stF, rfl, hl, hg.symm, hlm.symm⟩

/- ----------------------------------------------------------------
   Claims C5, C6, C10: convert_karma_graph.
   ---------------------------------------------------------------- -/

/-- C5: on an input whose vendor node and link ids are distinct, a
successful conversion maps the node at position i to index i and the
link at position j to index j (dense indices assigned strictly by array
position), and any second conversion of the same input returns the very
same node-index and link-index maps. -/
theorem convert_maps_positional (data : KData) (g : KGraph) (nm lm : IdMap)
    (h : convert_karma_graph data = .ok (g, nm, lm))
    (hn : (data.nodes.map KNode.id).Nodup)
    (hl : (data.links.map KLink.id).Nodup) :
    (∀ i n, data.nodes[i]? = some n → alookup nm n.id = some i) ∧
    (∀ j l, data.links[j]? = some l → alookup lm l.id = some j) ∧
    (∀ g2 nm2 lm2, convert_karma_graph data = .ok (g2, nm2, lm2) →
      nm2 = nm ∧ lm2 = lm) := by
  obtain ⟨attrs0, stF, hcn, hpl, hg, hlm⟩ := convert_inv data g nm lm h
  refine ⟨?_, ?_, ?_⟩
  · intro i n hi
    have := convertNodes_map_positional data.nodes 0 [] [] nm attrs0 hcn hn i n hi
    simpa using this
  · intro j l hj
    have := procLinks_lm_positional nm data.links ⟨0, [], attrs0, []⟩ stF hpl hl j l hj
    rw [hlm]
    simpa using this
  · intro g2 nm2 lm2 h2
    rw [h] at h2
    simp only [Except.ok.injEq, Prod.mk.injEq] at h2
    exact ⟨h2.2.1.symm, h2.2.2.symm⟩

/-- C6: for a terminal link (DataPropertyLink or ClassInstanceLink)
from a class node C to a data node D, when no earlier terminal link
rewrites C and no later terminal link rewrites D, the converted D
carries label equal to the label of C concatenated with the edge label
through the separator, lab likewise from the lab of C, and the
namespace of C. -/
theorem terminal_link_label_propagation
    (data : KData) (g : KGraph) (nm lm : IdMap)
    (pre post : List KLink) (l : KLink)
    (cs u ds : String) (ci di : Nat) (cnode dnode : KNode) (cu : String)
    (h : convert_karma_graph data = .ok (g, nm, lm))
    (hdec : data.links = pre ++ l :: post)
    (hterm : isTerminal l)
    (hsplit : splitLink l.id = some (cs, u, ds))
    (hci : alookup nm cs = some ci)
    (hdi : alookup nm ds = some di)
    (hne : ci ≠ di)
    (hcn : data.nodes[ci]? = some cnode)
    (hcint : cnode.ntype = "InternalNode")
    (hcu : cnode.uri = some cu)
    (hdn : data.nodes[di]? = some dnode)
    (hdd : dnode.ntype ≠ "InternalNode")
    (hpre : ∀ l2 ∈ pre, ¬ (isTerminal l2 ∧ targetIdx nm l2 = some ci))
    (hpost : ∀ l2 ∈ post, ¬ (isTerminal l2 ∧ targetIdx nm l2 = some di)) :
    g.nodesAttr[di]? = some ⟨"DataNode",
      get_label cu ++ "---" ++ get_label u,
      get_label cnode.id ++ "---" ++ get_label u,
      get_pfx cu⟩ := by
  obtain ⟨attrs0, stF, hcnodes, hpl, hg, hlm⟩ := convert_inv data g nm lm h
  obtain ⟨-, -, hidx⟩ := convertNodes_attrs data.nodes 0 [] [] nm attrs0 hcnodes
  obtain ⟨ndC, hndC, hciattr⟩ := hidx ci cnode hcn
  obtain ⟨ndD, hndD, hdiattr⟩ := hidx di dnode hdn
  simp only [List.length_nil, Nat.zero_add] at hciattr hdiattr
  have hndCval : ndC = ⟨"ClassNode", get_label cu, get_label cnode.id, get_pfx cu⟩ := by
    simp only [initNodeData, hcint, hcu, if_true, reduceIte] at hndC
    simp only [Except.ok.injEq] at hndC
    exact hndC.symm
  have hndDval : ndD = ⟨"DataNode", "", "", ""⟩ := by
    simp only [initNodeData, hdd, if_false, reduceIte] at hndD
    simp only [Except.ok.injEq] at hndD
    exact hndD.symm
  rw [hdec] at hpl
  obtain ⟨mid, hmid, hrest⟩ := procLinks_append nm pre (l :: post) _ stF hpl
  simp only [procLinks] at hrest
  cases hstep : procStep nm l mid with
  | error e => rw [hstep] at hrest; exact absurd hrest (by simp)
  | ok st2 =>
    rw [hstep] at hrest
    have hstabC := procLinks_attrs_stable nm pre ⟨0, [], attrs0, []⟩ mid ci hmid hpre
    have hciMid : mid.attrs[ci]? = some ndC := by
      rw [hstabC]; exact hciattr
    have htypeD := procLinks_attrs_type nm pre ⟨0, [], attrs0, []⟩ mid di hmid
    cases hd2 : mid.attrs[di]? with
    | none =>
      rw [hd2] at htypeD
      dsimp only at htypeD
      rw [hdiattr] at htypeD
      exact absurd htypeD (by simp)
    | some ndD2 =>
      have hd2type : ndD2.type = "DataNode" := by
        rw [hd2] at htypeD
        dsimp only at htypeD
        rw [hdiattr, hndDval] at htypeD
        simpa using htypeD
      have hwrite := procStep_terminal_write nm l mid st2 cs u ds ci di ndC ndD2
        hstep hterm hsplit hci hdi hne hciMid hd2
      have hstabD := procLinks_attrs_stable nm post st2 stF di hrest hpost
      rw [hg]
      dsimp only
      rw [hstabD, hwrite]
      simp [hndCval, hd2type]

/-- C10: when the links list decomposes as pre, then a terminal link l
from source index ci to target index di, then post with no further
terminal link targeting di, the final attributes of node di are exactly
those derived from l and the source attributes at the time l is
processed: the attributes the target held before l, including any
propagation from earlier terminal links in pre, are overwritten and do
not appear in the result. -/
theorem terminal_link_last_write_wins
    (data : KData) (g : KGraph) (nm lm : IdMap) (attrs0 : List NodeData)
    (pre post : List KLink) (l : KLink) (stMid : LState)
    (cs u ds : String) (ci di : Nat) (ndC ndD : NodeData)
    (h : convert_karma_graph data = .ok (g, nm, lm))
    (hnodes : convertNodes data.nodes 0 [] [] = .ok (nm, attrs0))
    (hdec : data.links = pre ++ l :: post)
    (hmid : procLinks nm pre ⟨0, [], attrs0, []⟩ = .ok stMid)
    (hterm : isTerminal l)
    (hsplit : splitLink l.id = some (cs, u, ds))
    (hci : alookup nm cs = some ci)
    (hdi : alookup nm ds = some di)
    (hne : ci ≠ di)
    (hC : stMid.attrs[ci]? = some ndC)
    (hD : stMid.attrs[di]? = some ndD)
    (hpost : ∀ l2 ∈ post, ¬ (isTerminal l2 ∧ targetIdx nm l2 = some di)) :
    g.nodesAttr[di]? = some ⟨ndD.type,
      ndC.label ++ "---" ++ get_label u,
      ndC.lab ++ "---" ++ get_label u, ndC.pfx⟩ := by
  obtain ⟨attrs1, stF, hcn1, hpl, hg, hlm⟩ := convert_inv data g nm lm h
  rw [hnodes] at hcn1
  simp only [Except.ok.injEq, Prod.mk.injEq] at hcn1
  obtain ⟨-, hattrs⟩ := hcn1
  subst hattrs
  rw [hdec] at hpl
  obtain ⟨mid, hmid2, hrest⟩ := procLinks_append nm pre (l :: post) _ stF hpl
  rw [hmid] at hmid2
  simp only [Except.ok.injEq] at hmid2
  subst hmid2
  simp only [procLinks] at hrest
  cases hstep : procStep nm l stMid with
  | error e => rw [hstep] at hrest; exact absurd hrest (by simp)
  | ok st2 =>
    rw [hstep] at hrest
    have hwrite := procStep_terminal_write nm l stMid st2 cs u ds ci di ndC ndD
      hstep hterm hsplit hci hdi hne hC hD
    have hstabD := procLinks_attrs_stable nm post st2 stF di hrest hpost
    rw [hg]
    dsimp only
    rw [hstabD, hwrite]

/-- The worked alignment example of the spec: an InternalNode with URI
"ex:Person", a DataNode, and one DataPropertyLink between them. -/
def exKarma : KData :=
  ⟨[⟨"n1", "InternalNode", some "ex:Person"⟩, ⟨"n2", "DataNode", none⟩],
   [⟨"n1---ex:name---n2", "DataPropertyLink", 1⟩]⟩

/-- The graph that converting exKarma produces. -/
def exKarmaG : KGraph :=
  ⟨[⟨"ClassNode", "Person", "n1", "ex:"⟩,
    ⟨"DataNode", "Person---name", "n1---name", "ex:"⟩],
   [⟨0, 1, 0, ⟨"n1---ex:name---n2", "DataPropertyLink", 1, "name", "ex:"⟩⟩]⟩

/-- The node map that converting exKarma produces. -/
def exKarmaNm : IdMap := [("n1", 0), ("n2", 1)]

/-- The link map that converting exKarma produces. -/
def exKarmaLm : IdMap := [("n1---ex:name---n2", 0)]

/-- Witness for C5 at the worked example. -/
theorem convert_maps_positional_witness :
    alookup exKarmaNm "n1" = some 0 ∧ alookup exKarmaNm "n2" = some 1 ∧
    alookup exKarmaLm "n1---ex:name---n2" = some 0 := by
  have h := convert_maps_positional exKarma exKarmaG exKarmaNm exKarmaLm rfl
    (by decide) (by decide)
  exact ⟨h.1 0 ⟨"n1", "InternalNode", some "ex:Person"⟩ rfl,
         h.1 1 ⟨"n2", "DataNode", none⟩ rfl,
         h.2.1 0 ⟨"n1---ex:name---n2", "DataPropertyLink", 1⟩ rfl⟩

/-- Witness for C6 at the worked example: node n1 gets label "Person"
via its URI and node n2 gets the composite label "Person---name". -/
theorem terminal_link_label_propagation_witness :
    exKarmaG.nodesAttr[1]? = some ⟨"DataNode", "Person---name", "n1---name", "ex:"⟩ ∧
    exKarmaG.nodesAttr[0]? = some ⟨"ClassNode", "Person", "n1", "ex:"⟩ := by
  constructor
  · have h := terminal_link_label_propagation exKarma exKarmaG exKarmaNm exKarmaLm
      [] [] ⟨"n1---ex:name---n2", "DataPropertyLink", 1⟩
      "n1" "ex:name" "n2" 0 1
      ⟨"n1", "InternalNode", some "ex:Person"⟩ ⟨"n2", "DataNode", none⟩ "ex:Person"
      rfl rfl (Or.inl rfl) rfl rfl rfl (by decide) rfl rfl rfl rfl (by decide)
      (by simp) (by simp)
    rw [h]
    decide
  · rfl

/-- A second alignment input on which two terminal links share the
target node n3: first from the Person class, then from the City class. -/
def exKarma2 : KData :=
  ⟨[⟨"n1", "InternalNode", some "ex:Person"⟩,
    ⟨"n2", "InternalNode", some "ex:City"⟩,
    ⟨"n3", "DataNode", none⟩],
   [⟨"n1---ex:name---n3", "DataPropertyLink", 1⟩,
    ⟨"n2---ex:mayor---n3", "ClassInstanceLink", 1⟩]⟩

/-- The graph that converting exKarma2 produces. -/
def exKarma2G : KGraph :=
  ⟨[⟨"ClassNode", "Person", "n1", "ex:"⟩,
    ⟨"ClassNode", "City", "n2", "ex:"⟩,
    ⟨"DataNode", "City---mayor", "n2---mayor", "ex:"⟩],
   [⟨0, 2, 0, ⟨"n1---ex:name---n3", "DataPropertyLink", 1, "name", "ex:"⟩⟩,
    ⟨1, 2, 1, ⟨"n2---ex:mayor---n3", "ClassInstanceLink", 1, "mayor", "ex:"⟩⟩]⟩

/-- The node map of exKarma2. -/
def exKarma2Nm : IdMap := [("n1", 0), ("n2", 1), ("n3", 2)]

/-- The link map of exKarma2. -/
def exKarma2Lm : IdMap := [("n1---ex:name---n3", 0), ("n2---ex:mayor---n3", 1)]

/-- The node attribute list of exKarma2 after the node pass. -/
def exKarma2Attrs0 : List NodeData :=
  [⟨"ClassNode", "Person", "n1", "ex:"⟩,
   ⟨"ClassNode", "City", "n2", "ex:"⟩,
   ⟨"DataNode", "", "", ""⟩]

/-- The loop state of exKarma2 after processing its first link: node n3
already carries the propagated label "Person---name". -/
def exKarma2Mid : LState :=
  ⟨1, [("n1---ex:name---n3", 0)],
   [⟨"ClassNode", "Person", "n1", "ex:"⟩,
    ⟨"ClassNode", "City", "n2", "ex:"⟩,
    ⟨"DataNode", "Person---name", "n1---name", "ex:"⟩],
   [⟨0, 2, 0, ⟨"n1---ex:name---n3", "DataPropertyLink", 1, "name", "ex:"⟩⟩]⟩

/-- Witness for C10: after the first terminal link node n3 carries
"Person---name", and the final output carries only "City---mayor"
derived from the second, last terminal link. -/
theorem terminal_link_last_write_wins_witness :
    exKarma2G.nodesAttr[2]? = some ⟨"DataNode", "City---mayor", "n2---mayor", "ex:"⟩ ∧
    exKarma2Mid.attrs[2]? = some ⟨"DataNode", "Person---name", "n1---name", "ex:"⟩ := by
  constructor
  · have h := terminal_link_last_write_wins exKarma2 exKarma2G exKarma2Nm exKarma2Lm
      exKarma2Attrs0
      [⟨"n1---ex:name---n3", "DataPropertyLink", 1⟩] []
      ⟨"n2---ex:mayor---n3", "ClassInstanceLink", 1⟩ exKarma2Mid
      "n2" "ex:mayor" "n3" 1 2
      ⟨"ClassNode", "City", "n2", "ex:"⟩
      ⟨"DataNode", "Person---name", "n1---name", "ex:"⟩
      rfl rfl rfl rfl (Or.inr rfl) rfl rfl rfl (by decide) rfl rfl (by simp)
    rw [h]
    decide
  · rfl

/- ----------------------------------------------------------------
   The endpoint proxies and their caches (serene/endpoints.py).
   ---------------------------------------------------------------- -/

/-- The JSON blob the server stores for a dataset: an opaque content
tag and the ids of its columns. -/
structure DSJson where
  content : Nat
  cols : List Nat
deriving DecidableEq, Repr

/-- A local DataSet object: the remote key, the hydrated json, and an
allocation tag that stands for Python object identity: two DataSet
objects are the very same object exactly when their tags agree. -/
structure DSObj where
  key : Nat
  json : DSJson
  tag : Nat
deriving DecidableEq, Repr

/-- A Column object derived from a DataSet. -/
structure Column where
  id : Nat
  dsKey : Nat
deriving DecidableEq, Repr

/-- State of a DataSetEndpoint: the remote store behind the session
api, the three lru_cache stores of the endpoint (items, get and
columns), the allocation counter for object identity, and a count of
network calls made through the api. -/
structure DSEndpoint where
  server : List (Nat × DSJson)
  itemsCache : Option (List DSObj)
  getCache : List (Nat × DSObj)
  columnsCache : Option (List (Nat × Column))
  alloc : Nat
  network : Nat
deriving DecidableEq, Repr

/-- Lookup in the lru_cache of get: a hit moves the entry to the most
recent position. -/
def lruGet (cache : List (Nat × DSObj)) (k : Nat) :
    Option (DSObj × List (Nat × DSObj)) :=
  match alookup cache k with
  | none => none
  | some v => some (v, (k, v) :: cache.eraseP (fun p => p.1 == k))

/-- Insertion in the lru_cache of get: most recent first, bounded at
the maxsize of 32 with least-recently-used eviction. -/
def lruPut (cache : List (Nat × DSObj)) (k : Nat) (v : DSObj) :
    List (Nat × DSObj) :=
  ((k, v) :: cache).take 32

/-- DataSetEndpoint.get: an lru_cache hit returns the cached object
without touching the network; a miss fetches the item, constructs a
fresh DataSet and caches it. -/
def dsGet (s : DSEndpoint) (k : Nat) : Except PyError (DSObj × DSEndpoint) :=
  match lruGet s.getCache k with
  | some (d, cache2) => .ok (d, { s with getCache := cache2 })
  | none =>
    match alookup s.server k with
    | some j =>
      let d : DSObj := ⟨k, j, s.alloc⟩
      .ok (d, { s with alloc := s.alloc + 1, network := s.network + 1,
                       getCache := lruPut s.getCache k d })
    | none => .error .serverError

/-- The DataSet list the items property builds on a cache miss: one
object per server entry, in server order, with fresh allocation tags. -/
def buildItems (server : List (Nat × DSJson)) (a0 : Nat) : List DSObj :=
  server.enum.map (fun p => ⟨p.2.1, p.2.2, a0 + p.1⟩)

/-- DataSetEndpoint.items: cached; a miss calls keys() and then item(k)
for every key. -/
def dsItems (s : DSEndpoint) : List DSObj × DSEndpoint :=
  match s.itemsCache with
  | some ds => (ds, s)
  | none =>
    let ds := buildItems s.server s.alloc
    (ds, { s with itemsCache := some ds,
                  alloc := s.alloc + s.server.length,
                  network := s.network + 1 + s.server.length })

/-- The Column objects of a DataSet. -/
def columnsOf (d : DSObj) : List Column :=
  d.json.cols.map (fun cid => ⟨cid, d.key⟩)

/-- DataSetEndpoint.columns: cached; a miss flattens the columns of
items (going through the items cache) into a ReadOnlyDict keyed by
column id. -/
def dsColumns (s : DSEndpoint) : List (Nat × Column) × DSEndpoint :=
  match s.columnsCache with
  | some cm => (cm, s)
  | none =>
    let p := dsItems s
    let cm := ((p.1.map columnsOf).flatten).map (fun c => (c.id, c))
    (cm, { p.2 with columnsCache := some cm })

/-- A dynamically typed argument to DataSetEndpoint.remove: a raw int
key, a DataSet object, or a value of any other type. -/
inductive DSValue where
  | key (k : Nat)
  | obj (d : DSObj)
  | other (descr : String)
deriving DecidableEq, Repr

/-- DataSetEndpoint.remove: the decache decorator first clears the
items cache and nothing else; _apply then resolves the argument (an
unexpected type raises TypeError) and api.delete removes the entry
server side. -/
def dsRemove (s : DSEndpoint) (v : DSValue) : Except PyError (Unit × DSEndpoint) :=
  let s1 := { s with itemsCache := none }
  match v with
  | .other descr => .error (.typeError ("Illegal type found in delete: " ++ descr))
  | .key k =>
    if (alookup s1.server k).isSome then
      .ok ((), { s1 with server := s1.server.eraseP (fun p => p.1 == k),
                         network := s1.network + 1 })
    else .error .serverError
  | .obj d =>
    if (alookup s1.server d.key).isSome then
      .ok ((), { s1 with server := s1.server.eraseP (fun p => p.1 == d.key),
                         network := s1.network + 1 })
    else .error .serverError

/-- DataSetEndpoint.upload: the decache decorator clears the items
cache and nothing else; the post stores a new entry under a fresh key
chosen by the server and the response is hydrated into a new DataSet. -/
def dsUpload (s : DSEndpoint) (k : Nat) (j : DSJson) : Except PyError (DSObj × DSEndpoint) :=
  let s1 := { s with itemsCache := none }
  let d : DSObj := ⟨k, j, s1.alloc⟩
  .ok (d, { s1 with server := s1.server ++ [(k, j)],
                    alloc := s1.alloc + 1, network := s1.network + 1 })

/-- A local Ontology object with its allocation tag for identity. -/
structure OntoObj where
  key : Nat
  content : Nat
  tag : Nat
deriving DecidableEq, Repr

/-- State of an OntologyEndpoint: remote store, the items lru_cache
(get has no cache of its own), allocation counter and network-call
count. -/
structure OntoEndpoint where
  server : List (Nat × Nat)
  itemsCache : Option (List OntoObj)
  alloc : Nat
  network : Nat
deriving DecidableEq, Repr

/-- The Ontology list the items property builds on a cache miss. -/
def buildOntos (server : List (Nat × Nat)) (a0 : Nat) : List OntoObj :=
  server.enum.map (fun p => ⟨p.2.1, p.2.2, a0 + p.1⟩)

/-- OntologyEndpoint.items: cached; a miss calls keys() and then
owl_file(k) and item(k) for every key. -/
def ontoItems (s : OntoEndpoint) : List OntoObj × OntoEndpoint :=
  match s.itemsCache with
  | some os => (os, s)
  | none =>
    let os := buildOntos s.server s.alloc
    (os, { s with itemsCache := some os,
                  alloc := s.alloc + s.server.length,
                  network := s.network + 1 + 2 * s.server.length })

/-- OntologyEndpoint.get: scans the cached items tuple for a matching
id; a missing key raises a plain Exception. -/
def ontoGet (s : OntoEndpoint) (k : Nat) : Except PyError (OntoObj × OntoEndpoint) :=
  let p := ontoItems s
  match p.1.find? (fun o => o.key == k) with
  | some o => .ok (o, p.2)
  | none => .error (.exception ("Ontology " ++ toString k ++ " does not exist on server"))

/- ----------------------------------------------------------------
   Claims C1, C7: endpoint caches.
   ---------------------------------------------------------------- -/

/-- Initial endpoint state for the C1 scenario: dataset 1 on the
server, all caches empty. -/
def c1s0 : DSEndpoint := ⟨[(1, ⟨10, [100]⟩)], none, [], none, 0, 0⟩

/-- Endpoint state after get(1): the object is in the get cache. -/
def c1s1 : DSEndpoint :=
  ⟨[(1, ⟨10, [100]⟩)], none, [(1, ⟨1, ⟨10, [100]⟩, 0⟩)], none, 1, 1⟩

/-- Endpoint state after remove(1): the server entry is gone and the
items cache was cleared, but the get cache still holds the dataset. -/
def c1s2 : DSEndpoint :=
  ⟨[], none, [(1, ⟨1, ⟨10, [100]⟩, 0⟩)], none, 1, 2⟩

/-- C1 counterexample: get(1), then remove(1), then get(1) again
returns the deleted dataset from the per-key get cache (its content tag
10 reflects the pre-mutation state and the key is no longer on the
server), without any network call, because the decache decorator clears
only the items cache. -/
theorem decache_misses_get_cache :
    dsGet c1s0 1 = .ok (⟨1, ⟨10, [100]⟩, 0⟩, c1s1) ∧
    dsRemove c1s1 (.key 1) = .ok ((), c1s2) ∧
    alookup c1s2.server 1 = none ∧
    dsGet c1s2 1 = .ok (⟨1, ⟨10, [100]⟩, 0⟩, c1s2) ∧
    c1s2.network = 2 := by
  refine ⟨rfl, rfl, rfl, rfl, rfl⟩

/-- C1 amended: after a successful remove or upload through the
endpoint the items cache alone has been invalidated, so a subsequent
items call rebuilds the list from the current server state; the per-key
get cache and the derived columns cache are left untouched and may keep
serving pre-mutation data. -/
theorem decache_invalidates_items_only (s : DSEndpoint) :
    (∀ v s2, dsRemove s v = .ok ((), s2) →
      s2.itemsCache = none ∧ s2.getCache = s.getCache ∧
      s2.columnsCache = s.columnsCache ∧
      (dsItems s2).1 = buildItems s2.server s2.alloc) ∧
    (∀ k j d s2, dsUpload s k j = .ok (d, s2) →
      s2.itemsCache = none ∧ s2.getCache = s.getCache ∧
      s2.columnsCache = s.columnsCache ∧
      (dsItems s2).1 = buildItems s2.server s2.alloc) := by
  constructor
  · intro v s2 h
    cases v with
    | other descr => exact absurd h (by simp [dsRemove])
    | key k =>
      simp only [dsRemove] at h
      by_cases hk : (alookup s.server k).isSome
      · simp only [hk, if_true, reduceIte, Except.ok.injEq, Prod.mk.injEq, true_and] at h
        rw [← h]
        exact ⟨rfl, rfl, rfl, rfl⟩
      · simp [hk] at h
    | obj d =>
      simp only [dsRemove] at h
      by_cases hk : (alookup s.server d.key).isSome
      · simp only [hk, if_true, reduceIte, Except.ok.injEq, Prod.mk.injEq, true_and] at h
        rw [← h]
        exact ⟨rfl, rfl, rfl, rfl⟩
      · simp [hk] at h
  · intro k j d s2 h
    simp only [dsUpload, Except.ok.injEq, Prod.mk.injEq] at h
    rw [← h.2]
    exact ⟨rfl, rfl, rfl, rfl⟩

/-- Witness for the amended C1 at the concrete scenario state. -/
theorem decache_invalidates_items_only_witness :
    c1s2.itemsCache = none ∧ c1s2.getCache = c1s1.getCache ∧
    c1s2.columnsCache = c1s1.columnsCache ∧
    (dsItems c1s2).1 = buildItems c1s2.server c1s2.alloc :=
  (decache_invalidates_items_only c1s1).1 (.key 1) c1s2 rfl

theorem lruGet_front (k : Nat) (d : DSObj) (X : List (Nat × DSObj)) :
    lruGet ((k, d) :: X) k = some (d, (k, d) :: X) := by
  simp [lruGet, alookup, List.eraseP_cons]

theorem dsGet_cache_front (s : DSEndpoint) (k : Nat) (d : DSObj) (s2 : DSEndpoint)
    (h : dsGet s k = .ok (d, s2)) :
    ∃ X, s2.getCache = (k, d) :: X := by
  unfold dsGet at h
  cases hc : lruGet s.getCache k with
  | some p =>
    obtain ⟨d0, c2⟩ := p
    rw [hc] at h
    dsimp only at h
    simp only [Except.ok.injEq, Prod.mk.injEq] at h
    obtain ⟨rfl, hs2⟩ := h
    unfold lruGet at hc
    cases ha : alookup s.getCache k with
    | none => rw [ha] at hc; exact absurd hc (by simp)
    | some v =>
      rw [ha] at hc
      simp only [Option.some.injEq, Prod.mk.injEq] at hc
      obtain ⟨rfl, hc2⟩ := hc
      refine ⟨s.getCache.eraseP (fun p => p.1 == k), ?_⟩
      rw [← hs2]
      exact hc2.symm
  | none =>
    rw [hc] at h
    dsimp only at h
    cases ha : alookup s.server k with
    | none => rw [ha] at h; exact absurd h (by simp)
    | some j =>
      rw [ha] at h
      dsimp only at h
      simp only [Except.ok.injEq, Prod.mk.injEq] at h
      obtain ⟨rfl, hs2⟩ := h
      refine ⟨s.getCache.take 31, ?_⟩
      rw [← hs2]
      simp only [lruPut, List.take_succ_cons]

theorem ontoItems_fix (s : OntoEndpoint) :
    ontoItems ((ontoItems s).2) = ontoItems s := by
  cases hic : s.itemsCache with
  | some os => simp [ontoItems, hic]
  | none => simp [ontoItems, hic]

/-- C7: calling get twice with the same key and no intervening mutation
returns the identical cached object (the same allocation tag, not just
an equal value) and leaves the endpoint state unchanged, so the second
call performs no network request; proved for the DataSetEndpoint (whose
get is cached per key through lru_cache) and for the OntologyEndpoint
(whose get scans the cached items tuple). -/
theorem endpoint_get_idempotent :
    (∀ s k d s2, dsGet s k = .ok (d, s2) → dsGet s2 k = .ok (d, s2)) ∧
    (∀ s k o s2, ontoGet s k = .ok (o, s2) → ontoGet s2 k = .ok (o, s2)) := by
  constructor
  · intro s k d s2 h
    obtain ⟨X, hX⟩ := dsGet_cache_front s k d s2 h
    unfold dsGet
    rw [hX, lruGet_front]
    rw [← hX]
  · intro s k o s2 h
    unfold ontoGet at h ⊢
    dsimp only at h ⊢
    cases hf : (ontoItems s).1.find? (fun o2 => o2.key == k) with
    | none => rw [hf] at h; exact absurd h (by simp)
    | some o0 =>
      rw [hf] at h
      simp only [Except.ok.injEq, Prod.mk.injEq] at h
      obtain ⟨rfl, rfl⟩ := h
      rw [ontoItems_fix s, hf]

/-- State for the C7 dataset scenario after one get(3). -/
def c7ds1 : DSEndpoint :=
  ⟨[(3, ⟨30, []⟩)], none, [(3, ⟨3, ⟨30, []⟩, 0⟩)], none, 1, 1⟩

/-- State for the C7 ontology scenario after one get(5). -/
def c7on1 : OntoEndpoint := ⟨[(5, 50)], some [⟨5, 50, 0⟩], 1, 3⟩

/-- Witness for C7: the second get on each endpoint returns the object
with the same allocation tag and leaves the state (network count
included) unchanged. -/
theorem endpoint_get_idempotent_witness :
    dsGet c7ds1 3 = .ok (⟨3, ⟨30, []⟩, 0⟩, c7ds1) ∧
    ontoGet c7on1 5 = .ok (⟨5, 50, 0⟩, c7on1) :=
  ⟨endpoint_get_idempotent.1 ⟨[(3, ⟨30, []⟩)], none, [], none, 0, 0⟩ 3
      ⟨3, ⟨30, []⟩, 0⟩ c7ds1 rfl,
   endpoint_get_idempotent.2 ⟨[(5, 50)], none, 0, 0⟩ 5 ⟨5, 50, 0⟩ c7on1 rfl⟩

/- ----------------------------------------------------------------
   Claim C3: OctopusEndpoint.upload.
   ---------------------------------------------------------------- -/

/-- State of the OctopusEndpoint: the creates posted to the server (the
ssd ids and ontology ids of each), the items lru_cache, and the count
of network calls. -/
structure OctoEndpoint where
  created : List (List (Option Nat) × List (Option Nat))
  itemsCache : Option (List Octopus)
  network : Nat
deriving DecidableEq, Repr

/-- OctopusEndpoint.upload: the decache decorator clears the items
cache; the ssds and then the ontologies of the octopus are checked in
order and the first unstored one raises ValueError naming it, before
any network call; once all are stored the api.post performs the remote
create; the source then hydrates with octopus.update(response,
self._session), but Octopus.update declares six parameters (json,
session, dataset_endpoint, model_endpoint, ontology_endpoint,
ssd_endpoint), so binding only two raises TypeError before the method
body runs and the stored object is never returned. The result pair is
(outcome, endpoint state after the call). -/
def octopusUpload (st : OctoEndpoint) (o : Octopus) :
    Except PyError Octopus × OctoEndpoint :=
  let st1 := { st with itemsCache := none }
  match o.ssds with
  | none => (.error (.typeError "NoneType object is not iterable"), st1)
  | some ssds =>
    match ssds.find? (fun s => !s.stored) with
    | some s =>
      (.error (.valueError ("SSD is not stored on the server: " ++ s.name ++
        ". Use <Serene>.ssd.upload(<SSD>) to update.")), st1)
    | none =>
      match o.ontologies with
      | none => (.error (.typeError "NoneType object is not iterable"), st1)
      | some onts =>
        match onts.find? (fun t => !t.stored) with
        | some t =>
          (.error (.valueError ("Ontology is not stored on the server: " ++ t.name ++
            ". Use <Serene>.ontologies.upload(<Ontology>) to update.")), st1)
        | none =>
          let st2 := { st1 with
            created := st1.created ++ [(ssds.map SSDRef.id, onts.map OntoRef.id)],
            network := st1.network + 1 }
          (.error (.typeError
            "update() missing 4 required positional arguments"), st2)

/-- An Octopus whose SSD is still local: upload must reject it. -/
def exOctoBad : Octopus :=
  ⟨none, false, some [⟨none, false, "ssd2"⟩], some [⟨some 2, true, "onto1"⟩],
   "oct", "", "randomForest", "NoResampling", 10, 10, .pynone⟩

/-- An Octopus whose SSD and Ontology are both stored: upload may post. -/
def exOctoGood : Octopus :=
  ⟨none, false, some [⟨some 1, true, "ssd1"⟩], some [⟨some 2, true, "onto1"⟩],
   "oct", "", "randomForest", "NoResampling", 10, 10, .pynone⟩

/-- An endpoint state with an empty creates log and a filled items
cache. -/
def exOctoEP : OctoEndpoint := ⟨[], some [], 0⟩

/-- C3: evaluation of OctopusEndpoint.upload at both kinds of input.
With an unstored SSD the call fails with a ValueError naming the
dependency, before any network call (no create posted, network count
unchanged). With all dependencies stored the remote create is posted,
but the call then raises TypeError instead of returning the hydrated
stored object, because the source invokes the six-parameter
Octopus.update with only two arguments. -/
theorem octopus_upload_divergence :
    (octopusUpload exOctoEP exOctoBad).1 =
      .error (.valueError ("SSD is not stored on the server: ssd2" ++
        ". Use <Serene>.ssd.upload(<SSD>) to update.")) ∧
    (octopusUpload exOctoEP exOctoBad).2.network = 0 ∧
    (octopusUpload exOctoEP exOctoBad).2.created = [] ∧
    (octopusUpload exOctoEP exOctoGood).2.created = [([some 1], [some 2])] ∧
    (octopusUpload exOctoEP exOctoGood).2.network = 1 ∧
    (octopusUpload exOctoEP exOctoGood).1 =
      .error (.typeError "update() missing 4 required positional arguments") := by
  exact ⟨rfl, rfl, rfl, rfl, rfl, rfl⟩
